import Mathlib

/-!
Verification of the oring frame-pacing client.

The development shallowly embeds the C modules under scrutiny:

* `src/oring-clock.c` — the freezable logical clock.  A `struct timespec`
  is modelled as an exact count of nanoseconds (`Int`); `timespec_sub`
  followed by `timespec_to_nsec` is plain integer subtraction.  The
  `uint64_t` arithmetic of the C code is modelled on `Nat` with an explicit
  reduction modulo `UINT64_MAX + 1` wherever the C code can wrap, and each
  C `assert` becomes a guard: a function returns `none` exactly when the
  corresponding assert would abort the process.
* `src/cal.c` — the per-frame submission lifecycle.  A `struct submission`
  keeps booleans for its outstanding protocol handles and an optional
  sync output; the observable side effects of the handlers (destroying a
  frame callback, destroying a feedback object, ref/unref of an output,
  running the post-resolution trigger) are collected in an `Effects`
  record so that "resolves exactly once" is the statement
  `triggers = 1`.
* `src/output.c` — reference counting and the mode list of one display
  output.
-/

namespace Oring

/-! ### Logical clock, from src/oring-clock.c -/

def UINT64_MAX : Nat := 18446744073709551615

/-- The clock state: `struct oring_clock` from oring-clock.h.  `base` is a
`struct timespec` modelled as nanoseconds, `offset` is the `uint64_t`
accumulated logical time. -/
structure OringClock where
  clock_id : Nat
  base : Int
  offset : Nat
  frozen : Bool
deriving Repr, DecidableEq

/-- `oring_clock_delta_nsec`: `timespec_sub` of `ts` and `base`, converted
to nanoseconds. -/
def oring_clock_delta_nsec (oc : OringClock) (ts : Int) : Int :=
  ts - oc.base

/-- `oring_clock_init`: epoch becomes base, offset zero, thawed. -/
def oring_clock_init (clock_id : Nat) (epoch : Int) : OringClock :=
  { clock_id := clock_id, base := epoch, offset := 0, frozen := false }

/-- `oring_clock_freeze`.  `none` models a failed `assert` (already
frozen, `now` before `base`, or u64 overflow of `offset + delta`). -/
def oring_clock_freeze (oc : OringClock) (now : Int) : Option OringClock :=
  if oc.frozen then none
  else
    let delta := oring_clock_delta_nsec oc now
    if delta < 0 then none
    else
      let nsec := (((oc.offset : Int) + delta)% ((UINT64_MAX : Int) + 1)).toNat
      if nsec < oc.offset then none
      else some { oc with base := now, offset := nsec, frozen := true }

/-- `oring_clock_thaw`.  `none` models a failed `assert` (not frozen, or
`now` before the freeze point). -/
def oring_clock_thaw (oc : OringClock) (now : Int) : Option OringClock :=
  if oc.frozen then
    let delta := oring_clock_delta_nsec oc now
    if delta < 0 then none
    else some { oc with base := now, frozen := false }
  else none

/-- `oring_clock_get_nsec`.  The two guards are the two asserts of the C
code: no u64 underflow for a negative delta, no u64 overflow for a
non-negative delta.  While frozen, a candidate value past the freeze
point is clamped to the freeze point. -/
def oring_clock_get_nsec (oc : OringClock) (ts : Int) : Option Nat :=
  let delta := oring_clock_delta_nsec oc ts
  if 0 ≤ delta ∨ (-delta).toNat ≤ oc.offset then
    if delta < 0 ∨ oc.offset ≤ UINT64_MAX - delta.toNat then
      let nsec := (((oc.offset : Int) + delta)% ((UINT64_MAX : Int) + 1)).toNat
      if oc.frozen ∧ oc.offset < nsec then some oc.offset
      else some nsec
    else none
  else none

/-- Claim C1: for every epoch `E` and timestamps `t1 ≤ t2 ≤ t3` (all at or
after `E`, with the deltas representable in `int64_t` and the final value
fitting a `uint64_t`), initializing at `E`, freezing at `t1` and thawing at
`t2` makes a query at `t3` return `(t1 - E) + (t3 - t2)`: the frozen
interval contributes zero nanoseconds. -/
theorem freeze_thaw_excludes_frozen_interval
    (cid : Nat) (E t1 t2 t3 : Int)
    (h1 : E ≤ t1) (h2 : t1 ≤ t2) (h3 : t2 ≤ t3)
    (hrep1 : t1 - E < 2 ^ 63) (hrep2 : t3 - t2 < 2 ^ 63)
    (hov : (t1 - E) + (t3 - t2) ≤ (UINT64_MAX : Int)) :
    ((oring_clock_freeze (oring_clock_init cid E) t1).bind fun c1 =>
      (oring_clock_thaw c1 t2).bind fun c2 =>
        oring_clock_get_nsec c2 t3)
      = some ((t1 - E) + (t3 - t2)).toNat := by
  simp only [UINT64_MAX] at hov
  have hfreeze : oring_clock_freeze (oring_clock_init cid E) t1
      = some { clock_id := cid, base := t1, offset := (t1 - E).toNat, frozen := true } := by
    simp only [oring_clock_freeze, oring_clock_init, oring_clock_delta_nsec, UINT64_MAX,
      Nat.cast_ofNat, Nat.cast_zero, zero_add, Bool.false_eq_true, if_false]
    rw [if_neg (by omega : ¬ (t1 - E < 0))]
    rw [Int.emod_eq_of_lt (by omega) (by omega)]
    rw [if_neg (by omega : ¬ ((t1 - E).toNat < 0))]
  have hthaw : oring_clock_thaw
        { clock_id := cid, base := t1, offset := (t1 - E).toNat, frozen := true } t2
      = some { clock_id := cid, base := t2, offset := (t1 - E).toNat, frozen := false } := by
    simp only [oring_clock_thaw, oring_clock_delta_nsec, if_true]
    rw [if_neg (by omega : ¬ (t2 - t1 < 0))]
  have hget : oring_clock_get_nsec
        { clock_id := cid, base := t2, offset := (t1 - E).toNat, frozen := false } t3
      = some ((t1 - E) + (t3 - t2)).toNat := by
    simp only [oring_clock_get_nsec, oring_clock_delta_nsec, UINT64_MAX, Nat.cast_ofNat,
      Bool.false_eq_true, false_and, if_false]
    rw [if_pos (Or.inl (by omega : (0 : Int) ≤ t3 - t2))]
    rw [if_pos (Or.inr (by omega : (t1 - E).toNat ≤ 18446744073709551615 - (t3 - t2).toNat))]
    have hemod : (((t1 - E).toNat : Int) + (t3 - t2)) % ((18446744073709551615 : Int) + 1)
        = (t1 - E) + (t3 - t2) := by
      rw [Int.toNat_of_nonneg (by omega), Int.emod_eq_of_lt (by omega) (by omega)]
    rw [hemod]
  rw [hfreeze, Option.some_bind, hthaw, Option.some_bind, hget]

/-- Witness for C1 at `E = 0`, `t1 = 10`, `t2 = 25`, `t3 = 40`: the value is
`(10 - 0) + (40 - 25) = 25`. -/
theorem freeze_thaw_excludes_frozen_interval_witness :
    (0 : Int) ≤ 10 ∧ (10 : Int) ≤ 25 ∧ (25 : Int) ≤ 40 ∧
    (10 : Int) - 0 < 2 ^ 63 ∧ (40 : Int) - 25 < 2 ^ 63 ∧
    ((10 : Int) - 0) + (40 - 25) ≤ (UINT64_MAX : Int) ∧
    ((oring_clock_freeze (oring_clock_init 1 0) 10).bind fun c1 =>
      (oring_clock_thaw c1 25).bind fun c2 =>
        oring_clock_get_nsec c2 40) = some 25 := by
  refine ⟨by decide, by decide, by decide, by decide, by decide, by decide, ?_⟩
  have h := freeze_thaw_excludes_frozen_interval 1 0 10 25 40
    (by decide) (by decide) (by decide) (by decide) (by decide) (by decide)
  exact h.trans (by decide)

/-- Claim C2: querying a frozen clock at any instant `t` at or after the
freeze point (the current `base`) returns exactly the clock value at the
freeze point, namely `offset`: the candidate `offset + delta` is clamped
whenever it exceeds `offset`, so no physical time elapsed after the freeze
is reflected.  The conjunct at `t = base` identifies `offset` as the value
at the freeze point itself. -/
theorem get_nsec_frozen_clamps_to_freeze_point
    (oc : OringClock) (t : Int)
    (hfrozen : oc.frozen = true)
    (hoff : oc.offset ≤ UINT64_MAX)
    (hbase : oc.base ≤ t)
    (hrep : t - oc.base < 2 ^ 63)
    (hov : oc.offset + (t - oc.base).toNat ≤ UINT64_MAX) :
    oring_clock_get_nsec oc t = some oc.offset ∧
    oring_clock_get_nsec oc oc.base = some oc.offset := by
  simp only [UINT64_MAX] at hoff hov
  constructor
  · simp only [oring_clock_get_nsec, oring_clock_delta_nsec, UINT64_MAX, Nat.cast_ofNat]
    rw [if_pos (Or.inl (by omega : (0 : Int) ≤ t - oc.base))]
    rw [if_pos (Or.inr (by omega : oc.offset ≤ 18446744073709551615 - (t - oc.base).toNat))]
    have hemod : ((oc.offset : Int) + (t - oc.base)) % ((18446744073709551615 : Int) + 1)
        = (oc.offset : Int) + (t - oc.base) := by
      rw [Int.emod_eq_of_lt (by omega) (by omega)]
    rw [hemod]
    by_cases hc : oc.offset < ((oc.offset : Int) + (t - oc.base)).toNat
    · rw [if_pos ⟨hfrozen, hc⟩]
    · rw [if_neg (fun h => hc h.2)]
      congr 1
      omega
  · simp only [oring_clock_get_nsec, oring_clock_delta_nsec, UINT64_MAX, Nat.cast_ofNat]
    rw [if_pos (Or.inl (by omega : (0 : Int) ≤ oc.base - oc.base))]
    rw [if_pos (Or.inr (by omega : oc.offset ≤ 18446744073709551615 - (oc.base - oc.base).toNat))]
    have hemod : ((oc.offset : Int) + (oc.base - oc.base)) % ((18446744073709551615 : Int) + 1)
        = (oc.offset : Int) := by
      rw [Int.emod_eq_of_lt (by omega) (by omega)]
      omega
    rw [hemod]
    rw [if_neg (fun h => absurd h.2 (by omega))]
    congr 1

/-- Witness for C2: a clock frozen at base 100 with offset 50, queried at
130, returns 50. -/
theorem get_nsec_frozen_clamps_to_freeze_point_witness :
    (⟨1, 100, 50, true⟩ : OringClock).frozen = true ∧
    (50 : Nat) ≤ UINT64_MAX ∧
    (100 : Int) ≤ 130 ∧
    (130 : Int) - 100 < 2 ^ 63 ∧
    50 + ((130 : Int) - 100).toNat ≤ UINT64_MAX ∧
    oring_clock_get_nsec ⟨1, 100, 50, true⟩ 130 = some 50 := by
  refine ⟨by decide, by decide, by decide, by decide, by decide, ?_⟩
  exact (get_nsec_frozen_clamps_to_freeze_point ⟨1, 100, 50, true⟩ 130
    (by decide) (by decide) (by decide) (by decide) (by decide)).1

/-- Claim C4: `oring_clock_get_nsec` accepts a timestamp before `base`:
`delta = ts - base` is signed and may be negative, the asserts are exactly
the no-underflow invariant (`-delta ≤ offset` when `delta < 0`) and the
no-overflow invariant (`offset + delta ≤ UINT64_MAX` when `delta ≥ 0`),
and under them (with the clock thawed, or the query at or before the
freeze point so that no clamping applies) the returned value is exactly
`offset + delta`, a value within `uint64_t` range, with no wraparound. -/
theorem get_nsec_backward_extrapolation_exact
    (oc : OringClock) (ts : Int)
    (hoff : oc.offset ≤ UINT64_MAX)
    (hrep1 : -(2 ^ 63) ≤ ts - oc.base) (hrep2 : ts - oc.base < 2 ^ 63)
    (hunder : ts - oc.base < 0 → (oc.base - ts).toNat ≤ oc.offset)
    (hover : 0 ≤ ts - oc.base → oc.offset + (ts - oc.base).toNat ≤ UINT64_MAX)
    (hmode : oc.frozen = false ∨ ts ≤ oc.base) :
    oring_clock_get_nsec oc ts = some ((oc.offset : Int) + (ts - oc.base)).toNat ∧
    0 ≤ (oc.offset : Int) + (ts - oc.base) ∧
    (oc.offset : Int) + (ts - oc.base) ≤ (UINT64_MAX : Int) := by
  simp only [UINT64_MAX] at hoff hover ⊢
  have hnonneg : 0 ≤ (oc.offset : Int) + (ts - oc.base) := by omega
  have hle : (oc.offset : Int) + (ts - oc.base) ≤ 18446744073709551615 := by
    omega
  refine ⟨?_, hnonneg, hle⟩
  simp only [oring_clock_get_nsec, oring_clock_delta_nsec, UINT64_MAX, Nat.cast_ofNat]
  rw [if_pos (by omega : 0 ≤ ts - oc.base ∨ (-(ts - oc.base)).toNat ≤ oc.offset)]
  rw [if_pos (by omega :
    ts - oc.base < 0 ∨ oc.offset ≤ 18446744073709551615 - (ts - oc.base).toNat)]
  have hemod : ((oc.offset : Int) + (ts - oc.base)) % ((18446744073709551615 : Int) + 1)
      = (oc.offset : Int) + (ts - oc.base) := by
    rw [Int.emod_eq_of_lt hnonneg (by omega)]
  rw [hemod]
  have hnotclamp : ¬ (oc.frozen = true ∧
      oc.offset < ((oc.offset : Int) + (ts - oc.base)).toNat) := by
    rcases hmode with hthawed | hback
    · intro h
      rw [hthawed] at h
      exact Bool.false_ne_true h.1
    · intro h
      exact absurd h.2 (by omega)
  rw [if_neg hnotclamp]

/-- Witness for C4: a frozen clock with base 100 and offset 50, queried at
80 (before `base`), returns `50 + (80 - 100) = 30`. -/
theorem get_nsec_backward_extrapolation_exact_witness :
    (50 : Nat) ≤ UINT64_MAX ∧
    -(2 ^ 63) ≤ (80 : Int) - 100 ∧ (80 : Int) - 100 < 2 ^ 63 ∧
    ((80 : Int) - 100 < 0 → ((100 : Int) - 80).toNat ≤ 50) ∧
    (0 ≤ (80 : Int) - 100 → 50 + ((80 : Int) - 100).toNat ≤ UINT64_MAX) ∧
    ((⟨1, 100, 50, true⟩ : OringClock).frozen = false ∨ (80 : Int) ≤ 100) ∧
    oring_clock_get_nsec ⟨1, 100, 50, true⟩ 80 = some 30 := by
  refine ⟨by decide, by decide, by decide, by decide, by decide, by decide, ?_⟩
  have h := get_nsec_backward_extrapolation_exact ⟨1, 100, 50, true⟩ 80
    (by decide) (by decide) (by decide) (by decide) (by decide) (by decide)
  exact h.1.trans (by decide)

/-! ### Submission lifecycle, from src/cal.c -/

/-- `struct submission`: `frame` and `feedback` record whether the
corresponding protocol object is still outstanding (non-NULL pointer in
C); `sync_output` holds the name of the referenced output, if any. -/
structure Submission where
  frame : Bool
  frame_done : Bool
  feedback : Bool
  sync_output : Option Nat
deriving Repr, DecidableEq

/-- Observable side effects of the handlers: how many frame callbacks and
feedback objects were destroyed, which outputs were ref'd and unref'd,
and how many times the post-resolution trigger (the placeholder for the
frame predictor, `printf("Trigger ...")` in `submission_finish`) ran. -/
structure Effects where
  frame_cb_destroyed : Nat
  feedback_destroyed : Nat
  output_refs : List Nat
  output_unrefs : List Nat
  triggers : Nat
deriving Repr, DecidableEq

/-- The state seen by one submission's listeners: the submission if it is
still alive, plus the accumulated effects. -/
structure MachineState where
  subm : Option Submission
  fx : Effects
deriving Repr, DecidableEq

/-- `submission_destroy`: unlink and free, destroying whichever protocol
handles are still outstanding and dropping the sync output reference. -/
def submission_destroy (s : Submission) (fx : Effects) : Effects :=
  { fx with
    frame_cb_destroyed := fx.frame_cb_destroyed + (if s.frame then 1 else 0),
    feedback_destroyed := fx.feedback_destroyed + (if s.feedback then 1 else 0),
    output_unrefs := fx.output_unrefs ++ s.sync_output.toList }

/-- `submission_finish`: destroy the submission, then run the
post-resolution trigger. -/
def submission_finish (s : Submission) (fx : Effects) : Effects :=
  let fx2 := submission_destroy s fx
  { fx2 with triggers := fx2.triggers + 1 }

/-- `submission_feedback_destroy`: asserts the event's feedback object is
the submission's own outstanding one (so `none` when no feedback is
outstanding), destroys it and clears the field. -/
def submission_feedback_destroy (s : Submission) (fx : Effects) :
    Option (Submission × Effects) :=
  if s.feedback then
    some ({ s with feedback := false },
          { fx with feedback_destroyed := fx.feedback_destroyed + 1 })
  else none

/-- `feedback_handle_sync_output`: the first reported output is ref'd and
stored; later reports are ignored. -/
def feedback_handle_sync_output (s : Submission) (fx : Effects) (o : Nat) :
    Submission × Effects :=
  match s.sync_output with
  | some _ => (s, fx)
  | none =>
      ({ s with sync_output := some o },
       { fx with output_refs := fx.output_refs ++ [o] })

/-- `frame_callback_handle_done`: asserts the callback is the outstanding
one, destroys it, marks the submission frame-done, and resolves it at
once when the display has no presentation support. -/
def frame_callback_handle_done (presentation : Bool) (s : Submission) (fx : Effects) :
    Option MachineState :=
  if s.frame then
    let s2 := { s with frame := false, frame_done := true }
    let fx2 := { fx with frame_cb_destroyed := fx.frame_cb_destroyed + 1 }
    if presentation then some { subm := some s2, fx := fx2 }
    else some { subm := none, fx := submission_finish s2 fx2 }
  else none

/-- `feedback_handle_presented`: asserts `frame_done`, destroys the
feedback object and resolves the submission. -/
def feedback_handle_presented (s : Submission) (fx : Effects) : Option MachineState :=
  if s.frame_done then
    (submission_feedback_destroy s fx).map fun p =>
      { subm := none, fx := submission_finish p.1 p.2 }
  else none

/-- `feedback_handle_discarded`: warns, destroys the feedback object and
resolves the submission; there is no `frame_done` precondition. -/
def feedback_handle_discarded (s : Submission) (fx : Effects) : Option MachineState :=
  (submission_feedback_destroy s fx).map fun p =>
    { subm := none, fx := submission_finish p.1 p.2 }

/-- The protocol events one submission can receive. -/
inductive SubmEvent where
  | frame_ready
  | sync_output (o : Nat)
  | presented
  | discarded
deriving Repr, DecidableEq

/-- Dispatch one event to the submission's listeners.  `none` models a
failed assert, or an event delivered to an already-destroyed
submission (impossible in the protocol, hence a violation). -/
def submission_step (presentation : Bool) (st : MachineState) (e : SubmEvent) :
    Option MachineState :=
  match st.subm with
  | none => none
  | some s =>
    match e with
    | .frame_ready => frame_callback_handle_done presentation s st.fx
    | .sync_output o =>
        let p := feedback_handle_sync_output s st.fx o
        some { subm := some p.1, fx := p.2 }
    | .presented => feedback_handle_presented s st.fx
    | .discarded => feedback_handle_discarded s st.fx

/-- `create_submission`: a fresh submission with a frame callback
outstanding and, exactly when presentation is supported, a feedback
object outstanding. -/
def create_submission (presentation : Bool) : MachineState :=
  { subm := some { frame := true, frame_done := false, feedback := presentation,
                   sync_output := none },
    fx := { frame_cb_destroyed := 0, feedback_destroyed := 0, output_refs := [],
            output_unrefs := [], triggers := 0 } }

/-- Deliver a list of events in order. -/
def run_submission_events (presentation : Bool) (st : MachineState) :
    List SubmEvent → Option MachineState
  | [] => some st
  | e :: es =>
      (submission_step presentation st e).bind fun st2 =>
        run_submission_events presentation st2 es

/-- Claim C3: for one submission receiving create, `frame_ready`,
`feedback_sync_output O`, then `feedback_presented`, the submission
resolves exactly once (`triggers = 1`, submission destroyed); a second
`feedback_sync_output O'` before resolution leaves `sync_output = O`
(first report wins), as both the intermediate state and the single unref
of `O` at destruction show. -/
theorem submission_resolves_once_first_sync_output_wins (O O' : Nat) :
    run_submission_events true (create_submission true)
        [.frame_ready, .sync_output O, .sync_output O', .presented]
      = some { subm := none,
               fx := { frame_cb_destroyed := 1, feedback_destroyed := 1,
                       output_refs := [O], output_unrefs := [O], triggers := 1 } } ∧
    run_submission_events true (create_submission true)
        [.frame_ready, .sync_output O, .sync_output O']
      = some { subm := some { frame := false, frame_done := true, feedback := true,
                              sync_output := some O },
               fx := { frame_cb_destroyed := 1, feedback_destroyed := 0,
                       output_refs := [O], output_unrefs := [], triggers := 0 } } := by
  exact ⟨rfl, rfl⟩

/-- Claim C5: without presentation support, `frame_ready` resolves the
submission immediately after marking it frame-done; with support, the
feedback object is issued at creation and `frame_ready` alone never
resolves any live submission (it stays alive and no trigger runs). -/
theorem frame_ready_resolution_depends_on_presentation
    (s : Submission) (fx : Effects) (hframe : s.frame = true) :
    run_submission_events false (create_submission false) [.frame_ready]
      = some { subm := none,
               fx := { frame_cb_destroyed := 1, feedback_destroyed := 0,
                       output_refs := [], output_unrefs := [], triggers := 1 } } ∧
    (create_submission true).subm.map Submission.feedback = some true ∧
    (create_submission false).subm.map Submission.feedback = some false ∧
    submission_step true { subm := some s, fx := fx } .frame_ready
      = some { subm := some { s with frame := false, frame_done := true },
               fx := { fx with frame_cb_destroyed := fx.frame_cb_destroyed + 1 } } := by
  refine ⟨rfl, rfl, rfl, ?_⟩
  simp only [submission_step, frame_callback_handle_done, hframe, if_true]

/-- Witness for C5 on a freshly created submission. -/
theorem frame_ready_resolution_depends_on_presentation_witness :
    ({ frame := true, frame_done := false, feedback := true,
       sync_output := none } : Submission).frame = true ∧
    submission_step true
        { subm := some { frame := true, frame_done := false, feedback := true,
                         sync_output := none },
          fx := { frame_cb_destroyed := 0, feedback_destroyed := 0, output_refs := [],
                  output_unrefs := [], triggers := 0 } } .frame_ready
      = some { subm := some { frame := false, frame_done := true, feedback := true,
                              sync_output := none },
               fx := { frame_cb_destroyed := 1, feedback_destroyed := 0, output_refs := [],
                       output_unrefs := [], triggers := 0 } } := by
  refine ⟨by decide, ?_⟩
  have h := frame_ready_resolution_depends_on_presentation
    { frame := true, frame_done := false, feedback := true, sync_output := none }
    { frame_cb_destroyed := 0, feedback_destroyed := 0, output_refs := [],
      output_unrefs := [], triggers := 0 } (by decide)
  exact h.2.2.2.trans (by decide)

/-- Claim C10: a `feedback_discarded` event on a submission still in the
created state (frame callback not yet fired) still destroys it and runs
the trigger exactly once — its outstanding frame callback and feedback
object are both released — whereas `feedback_presented` on the same state
fails the `frame_done` assert. -/
theorem feedback_discarded_resolves_from_created_state :
    submission_step true (create_submission true) .discarded
      = some { subm := none,
               fx := { frame_cb_destroyed := 1, feedback_destroyed := 1,
                       output_refs := [], output_unrefs := [], triggers := 1 } } ∧
    submission_step true (create_submission true) .presented = none := by
  exact ⟨rfl, rfl⟩

/-- `window_destroy`, restricted to its effect on the window's submission
list: every remaining submission goes through `submission_destroy` (not
`submission_finish`). -/
def window_destroy (subs : List Submission) (fx : Effects) : Effects :=
  subs.foldl (fun acc s => submission_destroy s acc) fx

/-- Claim C6: destroying a window with any number of outstanding
unresolved submissions releases every outstanding protocol handle of
every one of them (each still-outstanding frame callback and feedback
object is destroyed, each held sync output reference is dropped) and
never invokes the predictor/post-resolution trigger. -/
theorem window_destroy_releases_all_without_predictor
    (subs : List Submission) (fx : Effects) :
    (window_destroy subs fx).triggers = fx.triggers ∧
    (window_destroy subs fx).frame_cb_destroyed
      = fx.frame_cb_destroyed + (subs.filter (fun s => s.frame)).length ∧
    (window_destroy subs fx).feedback_destroyed
      = fx.feedback_destroyed + (subs.filter (fun s => s.feedback)).length ∧
    (window_destroy subs fx).output_unrefs
      = fx.output_unrefs ++ subs.filterMap (fun s => s.sync_output) := by
  induction subs generalizing fx with
  | nil => simp [window_destroy]
  | cons s rest ih =>
    obtain ⟨ih1, ih2, ih3, ih4⟩ := ih (submission_destroy s fx)
    have hstep : window_destroy (s :: rest) fx
        = window_destroy rest (submission_destroy s fx) := rfl
    rw [hstep, ih1, ih2, ih3, ih4]
    refine ⟨rfl, ?_, ?_, ?_⟩
    · cases hs : s.frame
      · simp [submission_destroy, List.filter_cons, hs]
      · simp [submission_destroy, List.filter_cons, hs]
        omega
    · cases hs : s.feedback
      · simp [submission_destroy, List.filter_cons, hs]
      · simp [submission_destroy, List.filter_cons, hs]
        omega
    · cases hs : s.sync_output <;>
        simp [submission_destroy, List.filterMap_cons, hs, Option.toList]

/-! ### Output objects, from src/output.c -/

/-- The reference-counting view of `struct output`: its count and whether
the `wl_output` proxy is still held. -/
structure Output where
  refcount : Nat
  has_proxy : Bool
deriving Repr, DecidableEq

/-- `output_ref`: asserts a positive count, increments it and returns the
same output. -/
def output_ref (o : Output) : Option Output :=
  if o.refcount = 0 then none
  else some { o with refcount := o.refcount + 1 }

/-- `output_unref`: asserts a positive count and decrements it; at zero
the output is destroyed (`none` in the pair), and the count after the
decrement is returned. -/
def output_unref (o : Output) : Option (Nat × Option Output) :=
  if o.refcount = 0 then none
  else
    let r := o.refcount - 1
    if r = 0 then some (0, none)
    else some (r, some { o with refcount := r })

/-- `output_remove`: destroys the proxy, then drops only the registry's
single reference via `output_unref`. -/
def output_remove (o : Output) : Option (Nat × Option Output) :=
  output_unref { o with has_proxy := false }

/-- Claim C8: on any output with positive count, `output_ref` increments
the count and returns the (still positive-count) output; `output_unref`
decrements and destroys exactly when the count reaches zero, returning
the remaining count; and `output_remove` on an output referenced
elsewhere (count at least two) drops only the registry's reference,
leaving the output alive. -/
theorem output_refcount_invariant (o : Output) (hpos : 0 < o.refcount) :
    output_ref o = some { o with refcount := o.refcount + 1 } ∧
    (∀ o2, output_ref o = some o2 → 0 < o2.refcount) ∧
    output_unref o
      = (if o.refcount = 1 then some (0, none)
         else some (o.refcount - 1, some { o with refcount := o.refcount - 1 })) ∧
    (1 < o.refcount →
      output_remove o
        = some (o.refcount - 1,
                some { o with refcount := o.refcount - 1, has_proxy := false })) := by
  refine ⟨?_, ?_, ?_, ?_⟩
  · rw [output_ref, if_neg (by omega)]
  · intro o2 h
    rw [output_ref, if_neg (by omega)] at h
    cases h
    show 0 < o.refcount + 1
    omega
  · rw [output_unref, if_neg (by omega)]
    by_cases h1 : o.refcount = 1
    · rw [if_pos (by omega), if_pos h1]
    · rw [if_neg (by omega), if_neg h1]
  · intro h2
    rw [output_remove, output_unref]
    rw [if_neg (by simp only []; omega)]
    rw [if_neg (by simp only []; omega)]

/-- Witness for C8 on an output with refcount 2 held by the registry and
one submission. -/
theorem output_refcount_invariant_witness :
    0 < (⟨2, true⟩ : Output).refcount ∧
    output_ref ⟨2, true⟩ = some ⟨3, true⟩ ∧
    output_unref ⟨2, true⟩ = some (1, some ⟨1, true⟩) ∧
    output_remove ⟨2, true⟩ = some (1, some ⟨1, false⟩) := by
  have h := output_refcount_invariant ⟨2, true⟩ (by decide)
  refine ⟨by decide, h.1.trans (by decide), ?_, ?_⟩
  · exact h.2.2.1.trans (by decide)
  · exact (h.2.2.2 (by decide)).trans (by decide)

/-- One entry of `struct output`'s mode list (`struct vidmode`). -/
structure Vidmode where
  flags : Nat
  width : Int
  height : Int
  millihz : Int
deriving Repr, DecidableEq

/-- The mode-tracking view of `struct output`: the ordered mode list, the
current mode, and the done flag. -/
structure OutputModes where
  mode_list : List Vidmode
  current : Option Vidmode
  done : Bool
deriving Repr, DecidableEq

def WL_OUTPUT_MODE_CURRENT : Nat := 1

/-- The fields `output_create` zero-initializes: empty mode list, no
current mode, not done. -/
def output_create_modes : OutputModes :=
  { mode_list := [], current := none, done := false }

/-- `output_handle_mode`: append the new mode at the tail of the mode
list; when the flags mark it current, it becomes the current mode. -/
def output_handle_mode (o : OutputModes) (flags : Nat) (width height refresh : Int) :
    OutputModes :=
  let mode : Vidmode := { flags := flags, width := width, height := height,
                          millihz := refresh }
  { o with
    mode_list := o.mode_list ++ [mode],
    current := if flags &&& WL_OUTPUT_MODE_CURRENT ≠ 0 then some mode else o.current }

/-- `output_handle_done`: finalize mode discovery. -/
def output_handle_done (o : OutputModes) : OutputModes :=
  { o with done := true }

/-- One received `wl_output.mode` event. -/
structure ModeEvent where
  flags : Nat
  width : Int
  height : Int
  refresh : Int
deriving Repr, DecidableEq

/-- The vidmode a mode event constructs. -/
def mode_of_event (e : ModeEvent) : Vidmode :=
  { flags := e.flags, width := e.width, height := e.height, millihz := e.refresh }

/-- Whether a mode event is flagged current. -/
def is_current_event (e : ModeEvent) : Bool :=
  decide (e.flags &&& WL_OUTPUT_MODE_CURRENT ≠ 0)

/-- Deliver a list of mode events in arrival order. -/
def apply_mode_events (o : OutputModes) (evs : List ModeEvent) : OutputModes :=
  evs.foldl (fun acc e => output_handle_mode acc e.flags e.width e.height e.refresh) o

/-- Claim C9: after any sequence of mode events, the mode list is the old
list with the new modes appended at the tail in arrival order, and the
current mode is the most recently received mode flagged current (the last
element of the filtered event list), unchanged when no event was flagged
current; a freshly created output has no current mode before the done
signal. -/
theorem output_mode_appends_and_tracks_current
    (o : OutputModes) (evs : List ModeEvent) :
    (apply_mode_events o evs).mode_list = o.mode_list ++ evs.map mode_of_event ∧
    (apply_mode_events o evs).current
      = (match (evs.filter is_current_event).getLast? with
         | some e => some (mode_of_event e)
         | none => o.current) ∧
    output_create_modes.current = none ∧
    output_create_modes.done = false := by
  refine ⟨?_, ?_, rfl, rfl⟩
  · induction evs generalizing o with
    | nil => simp [apply_mode_events]
    | cons e rest ih =>
      have hstep : apply_mode_events o (e :: rest)
          = apply_mode_events (output_handle_mode o e.flags e.width e.height e.refresh)
              rest := rfl
      rw [hstep, ih]
      simp [output_handle_mode, mode_of_event]
  · induction evs using List.reverseRecOn generalizing o with
    | nil => simp [apply_mode_events]
    | append_singleton l e ih =>
      have hstep : apply_mode_events o (l ++ [e])
          = output_handle_mode (apply_mode_events o l) e.flags e.width e.height
              e.refresh := by
        simp [apply_mode_events, List.foldl_append]
      rw [hstep, List.filter_append]
      cases hc : is_current_event e
      · have hcond := of_decide_eq_false hc
        have hfil : List.filter is_current_event [e] = [] := by
          simp [List.filter_cons, hc]
        rw [hfil, List.append_nil]
        simp only [output_handle_mode]
        rw [if_neg hcond]
        exact ih o
      · have hcond := of_decide_eq_true hc
        have hfil : List.filter is_current_event [e] = [e] := by
          simp [List.filter_cons, hc]
        rw [hfil, List.getLast?_concat]
        simp only [output_handle_mode]
        rw [if_pos hcond]
        rfl

/-! ### Presentation clock selection, from src/cal.c display_connect -/

/-- Outcome of the clock-selection step of `display_connect`: either a
clock id together with whether the degraded-accuracy warning was printed,
or a fatal error (`exit(1)`). -/
inductive ClockChoice where
  | ok (clock_id : Nat) (warned : Bool)
  | fatal
deriving Repr, DecidableEq

def INVALID_CLOCK_ID : Nat := 9999

def CLOCK_MONOTONIC : Nat := 1

/-- The `wp_presentation.clock_id` listener: stores the received id in
`display.clock_id`. -/
def presentation_clock_id (_d_clock_id : Nat) (clk_id : Nat) : Nat :=
  clk_id

/-- The clock-selection logic of `display_connect`: `clock_id` starts as
the invalid sentinel and is overwritten by each received
`presentation_clock_id` event; if the presentation interface was not
bound, warn and fall back to the monotonic clock; if it was bound but the
clock id is still the sentinel, it is a fatal error; otherwise use the
received id. -/
def display_connect_clock (presentation : Bool) (clock_events : List Nat) : ClockChoice :=
  let clock_id := clock_events.foldl (fun d id => presentation_clock_id d id)
    INVALID_CLOCK_ID
  if presentation then
    if clock_id = INVALID_CLOCK_ID then ClockChoice.fatal
    else ClockChoice.ok clock_id false
  else ClockChoice.ok CLOCK_MONOTONIC true

/-- Counterexample to claim C7: with the presentation interface bound but
the `presentation_clock_id` event never received, `display_connect` exits
fatally instead of falling back to the monotonic clock with a warning. -/
theorem clock_id_never_received_with_presentation_is_fatal :
    display_connect_clock true [] = ClockChoice.fatal ∧
    display_connect_clock true [] ≠ ClockChoice.ok CLOCK_MONOTONIC true := by
  exact ⟨rfl, by decide⟩

/-- Claim C7 as amended: a received `presentation_clock_id` event selects
the clock id used for initialization; when the presentation interface is
never bound (so the event cannot arrive), the monotonic clock is used and
the degraded-accuracy warning is issued; but when the interface is bound
and the event is never received, the absence is fatal. -/
theorem display_connect_clock_selection (id : Nat) (hid : id ≠ INVALID_CLOCK_ID) :
    display_connect_clock true [id] = ClockChoice.ok id false ∧
    display_connect_clock false [] = ClockChoice.ok CLOCK_MONOTONIC true ∧
    display_connect_clock true [] = ClockChoice.fatal := by
  refine ⟨?_, rfl, rfl⟩
  simp only [display_connect_clock, presentation_clock_id, List.foldl, if_true]
  rw [if_neg hid]

/-- Witness for the amended C7 with the monotonic raw clock id 4. -/
theorem display_connect_clock_selection_witness :
    (4 : Nat) ≠ INVALID_CLOCK_ID ∧
    display_connect_clock true [4] = ClockChoice.ok 4 false := by
  exact ⟨by decide, (display_connect_clock_selection 4 (by decide)).1⟩

end Oring
